import Mathlib

/-!
Verification of `robots_txt_analyzer.py` (class `RobotsTxtAnalyser`).

Shallow embedding conventions:
* Python `str` is Lean `String`; scanning works on `List Char` (`String.data`).
* HTTP is external (`requests`): a HEAD response is modelled by its status
  code together with the already-parsed `Last-Modified` header (the
  `datetime` values produced by `parse_last_modified_from_string` /
  `fromtimestamp` are abstracted to their integer Unix timestamps, on which
  `datetime` comparison and `timestamp()` act monotonically and faithfully);
  the GET body (`fetch`) is an arbitrary string input.
* Exceptions are modelled by `PyError`; a method that can raise returns the
  post-state paired with `Option PyError` (mutations that the source performs
  before raising are kept, those after the raise are dropped).
* The persisted file is modelled by `Option String` (`none` = file absent).
-/

/-- Exceptions that the analysed code can raise: `RobotsTxtNotFound`
(declared in the source), Python's built-in `TypeError` (from comparing
`datetime` with `None` / `fromtimestamp(None)`), and `FileNotFoundError`
(from `open` on a missing file). -/
inductive PyError where
  | robotsTxtNotFound
  | typeError
  | fileNotFound
deriving DecidableEq

/-- The `Stats` dataclass: `allow`, `disallow`, `last_modified` (optional
Unix timestamp). -/
structure Stats where
  allow : Int := 0
  disallow : Int := 0
  last_modified : Option Int := none
deriving DecidableEq

/-- Fuel-driven core of Python's `str.count`: counts non-overlapping,
case-sensitive occurrences of `needle`, scanning left to right and skipping
the length of the needle after each match. Fuel at least the length of the
scanned list is always enough, since every step consumes at least one
character. -/
def countFromAux (needle : List Char) : Nat → List Char → Nat
  | 0, _ => 0
  | _, [] => 0
  | fuel + 1, c :: t =>
    if needle.isPrefixOf (c :: t) then
      1 + countFromAux needle fuel (t.drop (needle.length - 1))
    else
      countFromAux needle fuel t

/-- Python's `s.count(sub)`: non-overlapping occurrences of `sub` in `s`
(for the empty needle Python returns `len(s) + 1`). -/
def pyCount (s sub : String) : Nat :=
  if sub.data.isEmpty then s.data.length + 1
  else countFromAux sub.data s.data.length s.data

/-- `RobotsTxtAnalyser.collect_stats`: builds a fresh `Stats` whose `allow`
and `disallow` fields are the substring counts of `"Allow:"` and
`"Disallow:"` in the content; `last_modified` keeps its default `None`. -/
def collect_stats (content : String) : Stats :=
  { allow := (pyCount content "Allow:" : Int),
    disallow := (pyCount content "Disallow:" : Int),
    last_modified := none }

/-- A HEAD response to the robots.txt URL: HTTP status code and the
`Last-Modified` header, already parsed to a Unix timestamp (`none` when the
header is absent). -/
structure HeadResponse where
  status : Nat
  lastModified : Option Int
deriving DecidableEq

/-- `RobotsTxtAnalyser.inspect`: raises `RobotsTxtNotFound` on status 404,
otherwise returns the parsed `Last-Modified` header (or `None` when the
header is missing). -/
def inspect (r : HeadResponse) : Except PyError (Option Int) :=
  if r.status = 404 then Except.error PyError.robotsTxtNotFound
  else Except.ok r.lastModified

/-- Characters allowed inside a URI scheme after the initial letter
(RFC 3986: letters, digits, `+`, `-`, `.`); this is the character class the
external `yarl`/`urllib` scheme parser uses. -/
def isSchemeChar (c : Char) : Bool :=
  c.isAlpha || c.isDigit || c = '+' || c = '-' || c = '.'

/-- Scans for a `:` preceded only by scheme characters, returning the scheme
characters, or `none` when a non-scheme character or the end of the string
is reached first. -/
def findScheme : List Char → Option (List Char)
  | [] => none
  | c :: t =>
    if c = ':' then some []
    else if isSchemeChar c then (findScheme t).map (fun s => c :: s)
    else none

/-- Model of `yarl.URL(s).scheme` for ASCII inputs: the scheme is the
longest prefix of scheme characters starting with a letter and terminated by
`:`; otherwise the URL has no scheme and the empty string is returned. -/
def urlScheme (s : String) : String :=
  match s.data with
  | [] => ""
  | c :: t =>
    if c.isAlpha then
      match findScheme (c :: t) with
      | some sc => String.mk sc
      | none => ""
    else ""

/-- The authority part of a URL tail: everything up to the first `/`, `?`
or `#`. -/
def takeAuthority : List Char → List Char
  | [] => []
  | c :: t => if c = '/' || c = '?' || c = '#' then [] else c :: takeAuthority t

/-- Model of `str(yarl.URL(url).with_path(path))` for ASCII inputs: keeps
the scheme and authority of `url`, replaces path (dropping any query and
fragment); a URL with no scheme or no authority marker is relative, so only
the new path remains. -/
def withPath (url path : String) : String :=
  let sch := urlScheme url
  if sch = "" then path
  else
    match url.data.drop (sch.length + 1) with
    | '/' :: '/' :: r => String.mk (sch.data ++ ':' :: '/' :: '/' :: (takeAuthority r ++ path.data))
    | _ => path

/-- `RobotsTxtAnalyser.prepare`: when the resource has no scheme it is
rebuilt as `https://resource` (`str(URL.build(scheme="https",
host=resource))`, modelled for ASCII host strings, which yarl passes into
the netloc verbatim); the robots.txt URL replaces the path with
`/robots.txt`. Returns `(resource, url_robots_txt)`. -/
def prepare (resource : String) : String × String :=
  let resource := if urlScheme resource = "" then "https://" ++ resource else resource
  (resource, withPath resource "/robots.txt")

/-- Python's `s.strip('/')`: removes leading and trailing slashes. -/
def stripSlashes (s : String) : String :=
  String.mk (((s.data.dropWhile (fun c => c = '/')).reverse.dropWhile (fun c => c = '/')).reverse)

/-- Modelled from the spec's words, for comparison with `prepare` (the
source of `normalize`): "strips slashes, prefixes `https://` if no scheme
present". -/
def normalizeSpec (resource : String) : String :=
  let r := stripSlashes resource
  if urlScheme r = "" then "https://" ++ r else r

/-- The in-memory `_resources_stats` dictionary: an insertion-ordered
association list from resource keys to `Stats` records. -/
abbrev Store := List (String × Stats)

/-- Python dict lookup `store[k]` / membership `k in store` (as `isSome`). -/
def storeFind : Store → String → Option Stats
  | [], _ => none
  | (k', v) :: t, k => if k' = k then some v else storeFind t k

/-- Python dict assignment `store[k] = v`: updates the existing key in
place, else appends. -/
def storeSet : Store → String → Stats → Store
  | [], k, v => [(k, v)]
  | (k', v') :: t, k, v =>
    if k' = k then (k, v) :: t else (k', v') :: storeSet t k v

/-- The `Stats` value stored by `analyze`: `collect_stats` of the body,
then `stats.last_modified = last_modified.timestamp()` when a `Last-Modified`
value was obtained (`datetime` objects are always truthy). -/
def analyzedStats (body : String) (lastModified : Option Int) : Stats :=
  match lastModified with
  | some t => { collect_stats body with last_modified := some t }
  | none => collect_stats body

/-- `RobotsTxtAnalyser.analyze` on store `store`, with the external HTTP
world supplied as inputs: `head` is the HEAD response used by `inspect`,
`body` is the text returned by `fetch`. Returns the post-state of
`_resources_stats` and the raised exception, if any. The skip test
`self.parse_last_modified_from_float(resource) > last_modified` raises
`TypeError` when the stored `last_modified` is `None`
(`fromtimestamp(None)`) or when the fresh one is `None`
(`datetime > None`). -/
def analyze (store : Store) (resource : String) (head : HeadResponse)
    (body : String) : Store × Option PyError :=
  let r := (prepare resource).1
  match inspect head with
  | Except.error e => (store, some e)
  | Except.ok lastModified =>
    match storeFind store r with
    | some stored =>
      match stored.last_modified, lastModified with
      | some s, some f =>
        if s > f then (store, none)
        else (storeSet store r (analyzedStats body (some f)), none)
      | _, _ => (store, some PyError.typeError)
    | none => (storeSet store r (analyzedStats body lastModified), none)

/-- Decimal digit characters of a natural number, most significant first
(the canonical rendering `json.dumps` uses for integers). -/
def natToChars (n : Nat) : List Char :=
  if h : n < 10 then [Char.ofNat (48 + n)]
  else natToChars (n / 10) ++ [Char.ofNat (48 + n % 10)]
termination_by n
decreasing_by exact Nat.div_lt_self (by omega) (by omega)

/-- Decimal rendering of an integer, with a leading `-` when negative. -/
def intToChars (n : Int) : List Char :=
  if n < 0 then '-' :: natToChars (-n).toNat else natToChars n.toNat

/-- Serialization of the optional `last_modified` value: `null` for `None`,
decimal digits for a timestamp. -/
def dumpsLM : Option Int → List Char
  | none => "null".data
  | some t => intToChars t

/-- Serialization of one `Stats` record as `json.dumps` renders the
`stats.__dict__` dictionary (default separators: `", "` and `": "`); the
timestamps are integers in this model, `None` becomes `null`. -/
def dumpsStats (st : Stats) : List Char :=
  "\x7b\"allow\": ".data ++ intToChars st.allow
    ++ ", \"disallow\": ".data ++ intToChars st.disallow
    ++ ", \"last_modified\": ".data
    ++ dumpsLM st.last_modified
    ++ "\x7d".data

/-- Serialization of one store entry: quoted key, `": "`, stats object.
Models `json.dumps` for keys made of plain ASCII characters (no character
that `dumps` would escape). -/
def dumpsEntry (k : String) (st : Stats) : List Char :=
  '"' :: (k.data ++ "\": ".data ++ dumpsStats st)

/-- Comma-separated serialization of the store's entries. -/
def dumpsEntries : Store → List Char
  | [] => []
  | [(k, st)] => dumpsEntry k st
  | (k, st) :: e :: t => dumpsEntry k st ++ ", ".data ++ dumpsEntries (e :: t)

/-- `json.dumps(self._resources_stats)`: the JSON object holding every
entry of the store. -/
def dumpsStore (s : Store) : String :=
  String.mk ("\x7b".data ++ dumpsEntries s ++ "\x7d".data)

/-- Consumes an expected literal prefix, returning the remainder. -/
def dropLit : List Char → List Char → Option (List Char)
  | [], l => some l
  | _ :: _, [] => none
  | c :: pt, x :: lt => if c = x then dropLit pt lt else none

/-- Accumulating decimal-digit scanner: consumes leading digits, folding
them onto `acc`. -/
def parseNatAux : Nat → List Char → Nat × List Char
  | acc, [] => (acc, [])
  | acc, c :: t =>
    if c.isDigit then parseNatAux (10 * acc + (c.toNat - 48)) t else (acc, c :: t)

/-- Parses a natural number (at least one digit required). -/
def parseNat : List Char → Option (Nat × List Char)
  | [] => none
  | c :: t => if c.isDigit then some (parseNatAux 0 (c :: t)) else none

/-- Parses a JSON integer: optional `-` sign followed by digits. -/
def parseInt : List Char → Option (Int × List Char)
  | [] => none
  | c :: t =>
    if c = '-' then (parseNat t).map (fun p => (-(p.1 : Int), p.2))
    else (parseNat (c :: t)).map (fun p => ((p.1 : Int), p.2))

/-- Parses the `last_modified` field value: `null` or an integer. -/
def parseLMField (l : List Char) : Option (Option Int × List Char) :=
  match dropLit "null".data l with
  | some r => some (none, r)
  | none => (parseInt l).map (fun p => (some p.1, p.2))

/-- Consumes the characters of a string literal up to the closing quote
(plain characters only: escapes are outside the modelled fragment). -/
def parseStringBody : List Char → Option (List Char × List Char)
  | [] => none
  | c :: t =>
    if c = '"' then some ([], t)
    else (parseStringBody t).map (fun p => (c :: p.1, p.2))

/-- Parses one serialized `Stats` object in canonical `json.dumps` form. -/
def parseStats (l : List Char) : Option (Stats × List Char) := do
  let l ← dropLit "\x7b\"allow\": ".data l
  let (a, l) ← parseInt l
  let l ← dropLit ", \"disallow\": ".data l
  let (d, l) ← parseInt l
  let l ← dropLit ", \"last_modified\": ".data l
  let (lm, l) ← parseLMField l
  let l ← dropLit "\x7d".data l
  some ({ allow := a, disallow := d, last_modified := lm }, l)

/-- Parses a nonempty comma-separated sequence of store entries; `fuel`
bounds the number of entries (each entry consumes at least one character,
so the length of the input suffices). -/
def parseEntries : Nat → List Char → Option (Store × List Char)
  | 0, _ => none
  | fuel + 1, l => do
    let l ← dropLit "\"".data l
    let (kChars, l) ← parseStringBody l
    let l ← dropLit ": ".data l
    let (st, l) ← parseStats l
    match l with
    | c1 :: c2 :: r =>
      if c1 = ',' ∧ c2 = ' ' then do
        let (entries, l2) ← parseEntries fuel r
        some ((String.mk kChars, st) :: entries, l2)
      else some ([(String.mk kChars, st)], c1 :: c2 :: r)
    | _ => some ([(String.mk kChars, st)], l)

/-- Model of `json.load` restricted to the store schema in the canonical
form that `save` writes (`json` encoding/decoding is an external
collaborator; a file holding JSON outside this fragment is treated like a
decode failure). Returns `none` on any deviation, as `json.load` raises
`JSONDecodeError` on invalid input. -/
def parseStore (s : String) : Option Store := do
  let l ← dropLit "\x7b".data s.data
  match l with
  | [] => none
  | c :: t =>
    if c = '\x7d' then if t = [] then some [] else none
    else do
      let (entries, l2) ← parseEntries (l.length + 1) (c :: t)
      let l3 ← dropLit "\x7d".data l2
      if l3 = [] then some entries else none

/-- `RobotsTxtAnalyser.load`: opens the file (raising `FileNotFoundError`
when absent), then `json.load`; a `JSONDecodeError` is caught and the store
set to the empty dict. -/
def load (file : Option String) : Except PyError Store :=
  match file with
  | none => Except.error PyError.fileNotFound
  | some text =>
    match parseStore text with
    | some st => Except.ok st
    | none => Except.ok []

/-- `RobotsTxtAnalyser.save`: writes `json.dumps(self._resources_stats)`
to the file. -/
def save (st : Store) : String := dumpsStore st

/-- The `with RobotsTxtAnalyser(filename) as analyzer: body` pattern:
`__enter__` runs `load` (an exception there propagates with the file
untouched and the body never run); the body transforms the store and may
raise; `__exit__` runs `save` unconditionally, after which any exception
from the body propagates. The single modelled file slot is
`self.filename`, used by both `load` and `save`. -/
def runWith (file : Option String) (body : Store → Store × Option PyError) :
    Option String × Option PyError :=
  match load file with
  | Except.error e => (file, some e)
  | Except.ok st =>
    let r := body st
    (some (save r.1), r.2)

deriving instance DecidableEq for Except

/-- Holds when the list does not start with a decimal digit, so that a
digit scanner stops exactly there. -/
def headNondigit : List Char → Bool
  | [] => true
  | c :: _ => !c.isDigit

/-- Holds when the list does not start with `", "`, so that the entry
parser ends the entry sequence there. -/
def headNotSep : List Char → Bool
  | c1 :: c2 :: _ => !(c1 = ',' && c2 = ' ')
  | _ => true

/-- Characters `json.dumps` emits verbatim inside a string literal:
printable ASCII other than the quote and the backslash. -/
def plainChar (c : Char) : Bool :=
  32 ≤ c.toNat && c.toNat ≤ 126 && c ≠ '"' && c ≠ '\\'

theorem dropLit_append (p r : List Char) : dropLit p (p ++ r) = some r := by
  induction p with
  | nil => rfl
  | cons c t ih => simp [dropLit, ih]

theorem dropLit_nil (l : List Char) : dropLit [] l = some l := rfl

theorem dropLit_cons (c : Char) (p l : List Char) :
    dropLit (c :: p) (c :: l) = dropLit p l := by simp [dropLit]

theorem digit_char_spec (n : Nat) (h : n < 10) :
    (Char.ofNat (48 + n)).isDigit = true ∧ (Char.ofNat (48 + n)).toNat = 48 + n := by
  interval_cases n <;> exact ⟨by decide, by decide⟩

theorem natToChars_ne_nil (n : Nat) : natToChars n ≠ [] := by
  rw [natToChars]
  split <;> simp

theorem natToChars_isDigit (n : Nat) : ∀ c ∈ natToChars n, c.isDigit = true := by
  induction n using Nat.strong_induction_on with
  | _ n ih =>
    rw [natToChars]
    split
    · next h =>
      intro c hc
      simp only [List.mem_singleton] at hc
      subst hc
      exact (digit_char_spec n h).1
    · next h =>
      intro c hc
      rw [List.mem_append, List.mem_singleton] at hc
      rcases hc with hc | hc
      · exact ih (n / 10) (Nat.div_lt_self (by omega) (by omega)) c hc
      · subst hc
        exact (digit_char_spec (n % 10) (Nat.mod_lt n (by omega))).1

theorem parseNatAux_stop (acc : Nat) (l : List Char) (h : headNondigit l = true) :
    parseNatAux acc l = (acc, l) := by
  cases l with
  | nil => rfl
  | cons c t =>
    simp only [headNondigit, Bool.not_eq_true'] at h
    simp [parseNatAux, h]

theorem parseNatAux_append (n : Nat) : ∀ acc rest,
    parseNatAux acc (natToChars n ++ rest)
      = parseNatAux (acc * 10 ^ (natToChars n).length + n) rest := by
  induction n using Nat.strong_induction_on with
  | _ n ih =>
    intro acc rest
    rw [natToChars]
    split
    · next h =>
      have hd := digit_char_spec n h
      simp only [List.cons_append, List.nil_append, parseNatAux, hd.1, if_true, hd.2,
        List.length_singleton, pow_one]
      congr 1
      omega
    · next h =>
      rw [List.append_assoc, ih (n / 10) (Nat.div_lt_self (by omega) (by omega))]
      have hd := digit_char_spec (n % 10) (Nat.mod_lt n (by omega))
      simp only [List.singleton_append, parseNatAux, hd.1, if_true, hd.2,
        List.length_append, List.length_singleton]
      congr 1
      have h2 : 10 * (n / 10) + n % 10 = n := by omega
      calc 10 * (acc * 10 ^ (natToChars (n / 10)).length + n / 10) + (48 + n % 10 - 48)
          = acc * (10 ^ (natToChars (n / 10)).length * 10) + (10 * (n / 10) + n % 10) := by
            ring_nf; omega
        _ = acc * 10 ^ ((natToChars (n / 10)).length + 1) + n := by
            rw [pow_succ, h2]

theorem parseNat_append (n : Nat) (rest : List Char) (h : headNondigit rest = true) :
    parseNat (natToChars n ++ rest) = some (n, rest) := by
  obtain ⟨c, t, hct⟩ : ∃ c t, natToChars n = c :: t := by
    cases hnc : natToChars n with
    | nil => exact absurd hnc (natToChars_ne_nil n)
    | cons c t => exact ⟨c, t, rfl⟩
  have hcd : c.isDigit = true := natToChars_isDigit n c (by rw [hct]; simp)
  rw [hct, List.cons_append, parseNat, if_pos hcd, ← List.cons_append, ← hct,
    parseNatAux_append]
  simp [parseNatAux_stop _ _ h]

theorem parseInt_append (n : Int) (rest : List Char) (h : headNondigit rest = true) :
    parseInt (intToChars n ++ rest) = some (n, rest) := by
  by_cases hn : n < 0
  · rw [intToChars, if_pos hn, List.cons_append, parseInt, if_pos rfl,
      parseNat_append _ _ h]
    have htn : (((-n).toNat : Int)) = -n := Int.toNat_of_nonneg (by omega)
    simp [htn]
  · rw [intToChars, if_neg hn]
    obtain ⟨c, t, hct⟩ : ∃ c t, natToChars n.toNat = c :: t := by
      cases hnc : natToChars n.toNat with
      | nil => exact absurd hnc (natToChars_ne_nil n.toNat)
      | cons c t => exact ⟨c, t, rfl⟩
    have hcd : c.isDigit = true := natToChars_isDigit n.toNat c (by rw [hct]; simp)
    have hne : ¬ c = '-' := by
      intro he
      rw [he] at hcd
      exact absurd hcd (by decide)
    rw [hct, List.cons_append, parseInt, if_neg hne, ← List.cons_append, ← hct,
      parseNat_append _ _ h]
    simp [Int.toNat_of_nonneg (by omega : (0 : Int) ≤ n)]

theorem dropNull_intToChars (n : Int) (rest : List Char) :
    dropLit "null".data (intToChars n ++ rest) = none := by
  have hnull : "null".data = 'n' :: 'u' :: 'l' :: 'l' :: [] := rfl
  by_cases hn : n < 0
  · rw [intToChars, if_pos hn, hnull]
    simp [dropLit]
  · rw [intToChars, if_neg hn]
    obtain ⟨c, t, hct⟩ : ∃ c t, natToChars n.toNat = c :: t := by
      cases hnc : natToChars n.toNat with
      | nil => exact absurd hnc (natToChars_ne_nil n.toNat)
      | cons c t => exact ⟨c, t, rfl⟩
    have hcd : c.isDigit = true := natToChars_isDigit n.toNat c (by rw [hct]; simp)
    have hne : ¬ 'n' = c := by
      intro he
      rw [← he] at hcd
      exact absurd hcd (by decide)
    rw [hct, List.cons_append, hnull]
    simp [dropLit, hne]

theorem parseLMField_append (lm : Option Int) (rest : List Char)
    (h : headNondigit rest = true) :
    parseLMField (dumpsLM lm ++ rest) = some (lm, rest) := by
  cases lm with
  | none => rw [dumpsLM, parseLMField, dropLit_append]
  | some t =>
    rw [dumpsLM, parseLMField, dropNull_intToChars, parseInt_append _ _ h]
    rfl

theorem parseStringBody_append (k : List Char) (rest : List Char)
    (h : ∀ c ∈ k, ¬ c = '"') :
    parseStringBody (k ++ '"' :: rest) = some (k, rest) := by
  induction k with
  | nil => simp [parseStringBody]
  | cons c t ih =>
    have hc : ¬ c = '"' := h c (by simp)
    rw [List.cons_append, parseStringBody, if_neg hc,
      ih (fun c hc => h c (by simp [hc]))]
    rfl

theorem parseStats_append (st : Stats) (rest : List Char) :
    parseStats (dumpsStats st ++ rest) = some (st, rest) := by
  rw [dumpsStats, parseStats]
  simp only [List.append_assoc, Option.bind_eq_bind']
  rw [dropLit_append]
  simp only [Option.some_bind']
  rw [parseInt_append _ _ (by rfl)]
  simp only [Option.some_bind']
  rw [dropLit_append]
  simp only [Option.some_bind']
  rw [parseInt_append _ _ (by rfl)]
  simp only [Option.some_bind']
  rw [dropLit_append]
  simp only [Option.some_bind']
  rw [parseLMField_append _ _ (by rfl)]
  simp only [Option.some_bind']
  rw [dropLit_append]
  simp only [Option.some_bind']

theorem parseEntries_append (entries : Store) : ∀ (fuel : Nat) (rest : List Char),
    entries ≠ [] → entries.length ≤ fuel →
    (∀ kv ∈ entries, ∀ c ∈ kv.1.data, ¬ c = '"') →
    headNotSep rest = true →
    parseEntries fuel (dumpsEntries entries ++ rest) = some (entries, rest) := by
  induction entries with
  | nil => intro _ _ hne; exact absurd rfl hne
  | cons e tail ih =>
    intro fuel rest _ hlen hkeys hsep
    obtain ⟨k, st⟩ := e
    cases fuel with
    | zero => simp at hlen
    | succ f =>
      have hk : ∀ c ∈ k.data, ¬ c = '"' := by
        intro c hc
        exact hkeys (k, st) (by simp) c hc
      have hquote : ("\"" : String).data = ['"'] := rfl
      have hcolon : (": " : String).data = [':', ' '] := rfl
      cases tail with
      | nil =>
        simp only [dumpsEntries, dumpsEntry, parseEntries, Option.bind_eq_bind',
          hquote, hcolon, List.cons_append, List.append_assoc, List.nil_append]
        rw [dropLit_cons, dropLit_nil]
        simp only [Option.some_bind']
        rw [parseStringBody_append _ _ hk]
        simp only [Option.some_bind']
        rw [dropLit_cons, dropLit_cons, dropLit_nil]
        simp only [Option.some_bind']
        rw [parseStats_append]
        simp only [Option.some_bind']
        match rest, hsep with
        | [], _ => rfl
        | [c1], _ => rfl
        | c1 :: c2 :: r, hsep =>
          have hns : ¬ (c1 = ',' ∧ c2 = ' ') := by
            simp only [headNotSep, Bool.not_eq_true', Bool.and_eq_false_iff] at hsep
            rcases hsep with h | h <;> simp [decide_eq_false_iff_not] at h <;> tauto
          dsimp only
          rw [if_neg hns]
      | cons e2 t2 =>
        simp only [dumpsEntries, dumpsEntry, parseEntries, Option.bind_eq_bind',
          hquote, hcolon, List.cons_append, List.append_assoc, List.nil_append]
        rw [dropLit_cons, dropLit_nil]
        simp only [Option.some_bind']
        rw [parseStringBody_append _ _ hk]
        simp only [Option.some_bind']
        rw [dropLit_cons, dropLit_cons, dropLit_nil]
        simp only [Option.some_bind']
        rw [parseStats_append]
        simp only [Option.some_bind']
        rw [ih f rest (by simp)
          (by simp only [List.length_cons] at hlen ⊢; omega)
          (fun kv hkv => hkeys kv (List.mem_cons_of_mem _ hkv)) hsep]
        simp only [Option.some_bind', and_self, if_true]

theorem dumpsEntries_length (entries : Store) :
    entries.length ≤ (dumpsEntries entries).length := by
  induction entries with
  | nil => simp [dumpsEntries]
  | cons e t ih =>
    obtain ⟨k, st⟩ := e
    cases t with
    | nil => simp [dumpsEntries, dumpsEntry]
    | cons e2 t2 =>
      simp only [dumpsEntries, dumpsEntry, List.length_append, List.length_cons] at *
      omega

theorem parseStore_dumpsStore (store : Store)
    (hkeys : ∀ kv ∈ store, ∀ c ∈ kv.1.data, plainChar c = true) :
    parseStore (dumpsStore store) = some store := by
  cases store with
  | nil => decide
  | cons e t =>
    have hkq : ∀ kv ∈ e :: t, ∀ c ∈ kv.1.data, ¬ c = '"' := by
      intro kv hkv c hc
      have hp := hkeys kv hkv c hc
      simp [plainChar] at hp
      tauto
    obtain ⟨X, hX⟩ : ∃ X, dumpsEntries (e :: t) = '"' :: X := by
      obtain ⟨k, st⟩ := e
      cases t with
      | nil => exact ⟨_, rfl⟩
      | cons e2 t2 => exact ⟨_, rfl⟩
    have hlb : ("\x7b" : String).data = ['\x7b'] := rfl
    have hrb : ("\x7d" : String).data = ['\x7d'] := rfl
    rw [parseStore, dumpsStore]
    dsimp only
    simp only [hlb, hrb, List.cons_append, List.append_assoc, List.nil_append,
      Option.bind_eq_bind']
    rw [dropLit_cons, dropLit_nil]
    simp only [Option.some_bind']
    rw [hX, List.cons_append]
    dsimp only
    rw [if_neg (by decide : ¬ ('"' : Char) = '\x7d')]
    rw [← List.cons_append, ← hX]
    have hfuel : (e :: t).length ≤ (dumpsEntries (e :: t) ++ ['\x7d']).length + 1 := by
      have := dumpsEntries_length (e :: t)
      simp only [List.length_append, List.length_cons, List.length_nil] at *
      omega
    rw [parseEntries_append (e :: t) _ ['\x7d'] (by simp) hfuel hkq rfl]
    simp only [Option.some_bind']
    rw [dropLit_cons, dropLit_nil]
    simp only [Option.some_bind', if_true]

theorem findScheme_no_colon (l : List Char) (h : ∀ c ∈ l, ¬ c = ':') :
    findScheme l = none := by
  induction l with
  | nil => rfl
  | cons c t ih =>
    rw [findScheme, if_neg (h c (by simp))]
    split
    · rw [ih (fun c hc => h c (by simp [hc]))]
      rfl
    · rfl

theorem urlScheme_no_colon (s : String) (h : ∀ c ∈ s.data, ¬ c = ':') :
    urlScheme s = "" := by
  rw [urlScheme]
  rcases hd : s.data with _ | ⟨c, t⟩
  · rfl
  · dsimp only
    rw [findScheme_no_colon (c :: t) (by rw [← hd]; exact h)]
    simp

theorem urlScheme_https (host : String) : urlScheme ("https://" ++ host) = "https" := by
  have h : ("https://" ++ host).data
      = 'h' :: 't' :: 't' :: 'p' :: 's' :: ':' :: '/' :: '/' :: host.data := by
    rw [String.data_append]
    rfl
  rw [urlScheme]
  rw [h]
  rfl

theorem takeAuthority_all (l : List Char)
    (h : ∀ c ∈ l, ¬ c = '/' ∧ ¬ c = '?' ∧ ¬ c = '#') : takeAuthority l = l := by
  induction l with
  | nil => rfl
  | cons c t ih =>
    have hc := h c (by simp)
    rw [takeAuthority]
    rw [if_neg (by simp [hc.1, hc.2.1, hc.2.2]), ih (fun c hc => h c (by simp [hc]))]

theorem withPath_https (host : String)
    (h : ∀ c ∈ host.data, ¬ c = '/' ∧ ¬ c = '?' ∧ ¬ c = '#') :
    withPath ("https://" ++ host) "/robots.txt" = "https://" ++ host ++ "/robots.txt" := by
  have hdata : ("https://" ++ host).data
      = 'h' :: 't' :: 't' :: 'p' :: 's' :: ':' :: '/' :: '/' :: host.data := by
    rw [String.data_append]
    rfl
  rw [withPath, urlScheme_https]
  rw [if_neg (by decide : ¬ ("https" : String) = "")]
  rw [show ("https" : String).length + 1 = 6 from rfl, hdata]
  show String.mk ("https".data ++ ':' :: '/' :: '/'
    :: (takeAuthority host.data ++ "/robots.txt".data)) = _
  rw [takeAuthority_all host.data h]
  apply String.ext
  simp [String.data_append]

/-- C1: for the input `"Allow: /a\nDisallow: /b\nDisallow: /c"`,
`collect_stats` returns `allow = 1` and `disallow = 2`: the lowercase
`allow:` inside each `Disallow:` does not match the case-sensitive
`"Allow:"` substring count. -/
theorem collect_stats_sample_counts :
    collect_stats "Allow: /a\nDisallow: /b\nDisallow: /c"
      = { allow := 1, disallow := 2, last_modified := none } := by decide

/-- C2: the code contradicts the claim (and the module's own task
description) at an unchanged timestamp. With a stored entry whose
`last_modified` is 100 and a fresh `Last-Modified` of 100, the skip test
`stored > fresh` is false, so `analyze` re-fetches and overwrites the
stored stats entry instead of leaving it untouched. -/
theorem analyze_unchanged_timestamp_overwrites :
    analyze [("https://example.com", { allow := 0, disallow := 0, last_modified := some 100 })]
        "https://example.com" ⟨200, some 100⟩ "Allow: /new"
      = ([("https://example.com", { allow := 1, disallow := 0, last_modified := some 100 })], none)
    ∧ (analyze [("https://example.com", { allow := 0, disallow := 0, last_modified := some 100 })]
        "https://example.com" ⟨200, some 100⟩ "Allow: /new").1
      ≠ [("https://example.com", { allow := 0, disallow := 0, last_modified := some 100 })] := by
  constructor
  · decide
  · decide

/-- C3 (counterexample): `load` on an absent persisted file does not yield
the empty store; `open` raises `FileNotFoundError`, which nothing
catches. -/
theorem load_absent_file_raises :
    load none = Except.error PyError.fileNotFound := by decide

/-- C3 (amended): a present but malformed persisted file is treated as the
empty store with no error (the `JSONDecodeError` handler), while an absent
file makes `load` raise `FileNotFoundError`. -/
theorem load_malformed_or_absent :
    (∀ s : String, parseStore s = none → load (some s) = Except.ok []) ∧
    load none = Except.error PyError.fileNotFound := by
  constructor
  · intro s h
    simp [load, h]
  · decide

/-- Witness for `load_malformed_or_absent` at the malformed file
`"garbage"`. -/
theorem load_malformed_or_absent_witness :
    load (some "garbage") = Except.ok [] ∧
    load none = Except.error PyError.fileNotFound :=
  ⟨load_malformed_or_absent.1 "garbage" (by decide), load_malformed_or_absent.2⟩

/-- C4: a 404 HEAD response makes `analyze` raise the domain-specific
`RobotsTxtNotFound` (via `inspect`) and leaves the store exactly as it
was: no entry is created or modified. -/
theorem analyze_404_raises_store_unchanged (store : Store) (resource : String)
    (head : HeadResponse) (body : String) (h : head.status = 404) :
    analyze store resource head body = (store, some PyError.robotsTxtNotFound) := by
  simp [analyze, inspect, h]

/-- Witness for `analyze_404_raises_store_unchanged` at a concrete 404
response. -/
theorem analyze_404_raises_store_unchanged_witness :
    analyze [] "example.com" ⟨404, none⟩ "" = ([], some PyError.robotsTxtNotFound) :=
  analyze_404_raises_store_unchanged [] "example.com" ⟨404, none⟩ "" rfl

/-- C5 (counterexample): with the `Last-Modified` header absent and status
200, `analyze` does not complete without error for a resource that is
already tracked: the unguarded comparison raises `TypeError`. -/
theorem analyze_missing_header_tracked_raises :
    analyze [("https://example.org", { allow := 0, disallow := 0, last_modified := some 5 })]
        "https://example.org" ⟨200, none⟩ "x"
      = ([("https://example.org", { allow := 0, disallow := 0, last_modified := some 5 })],
         some PyError.typeError) := by decide

/-- C5 (amended): when the `Last-Modified` header is absent and the status
is not 404, `inspect` returns `None`; if additionally the resource is not
already tracked in the store, `analyze` completes without error and records
the resource's `last_modified` field as `None`. -/
theorem inspect_missing_header_untracked (store : Store) (resource : String)
    (head : HeadResponse) (body : String)
    (h404 : ¬ head.status = 404) (hlm : head.lastModified = none)
    (hnew : storeFind store (prepare resource).1 = none) :
    inspect head = Except.ok none ∧
    analyze store resource head body
      = (storeSet store (prepare resource).1 (analyzedStats body none), none) ∧
    (analyzedStats body none).last_modified = none := by
  refine ⟨?_, ?_, ?_⟩
  · simp [inspect, h404, hlm]
  · simp [analyze, inspect, h404, hlm, hnew]
  · simp [analyzedStats, collect_stats]

/-- Witness for `inspect_missing_header_untracked` at a concrete fresh
resource. -/
theorem inspect_missing_header_untracked_witness :
    inspect ⟨200, none⟩ = Except.ok none ∧
    analyze [] "https://example.net" ⟨200, none⟩ "Disallow: /"
      = (storeSet [] (prepare "https://example.net").1 (analyzedStats "Disallow: /" none), none) ∧
    (analyzedStats "Disallow: /" none).last_modified = none :=
  inspect_missing_header_untracked [] "https://example.net" ⟨200, none⟩ "Disallow: /"
    (by decide) rfl (by decide)

/-- C6: `save` followed by `load` restores the store exactly, for any store
whose keys are made of plain ASCII characters (the fragment on which the
external JSON codec is modelled; normalized resource URLs are such keys). -/
theorem save_load_roundtrip (store : Store)
    (hkeys : ∀ kv ∈ store, ∀ c ∈ kv.1.data, plainChar c = true) :
    load (some (save store)) = Except.ok store := by
  have h := parseStore_dumpsStore store hkeys
  simp [load, save, h]

/-- Witness for `save_load_roundtrip` at a concrete one-entry store. -/
theorem save_load_roundtrip_witness :
    load (some (save [("https://example.com",
        { allow := 1, disallow := 2, last_modified := some 1700000000 })]))
      = Except.ok [("https://example.com",
        { allow := 1, disallow := 2, last_modified := some 1700000000 })] :=
  save_load_roundtrip _ (by decide)

/-- C7 (counterexample): `prepare` does not strip slashes. On the
schemeless identifier `"example.com/"` it yields `"https://example.com/"`,
while the spec's normalize (strip slashes, then prefix `https://`) yields
`"https://example.com"`. -/
theorem prepare_differs_from_normalizeSpec :
    (prepare "example.com/").1 = "https://example.com/" ∧
    normalizeSpec "example.com/" = "https://example.com" ∧
    ¬ (prepare "example.com/").1 = normalizeSpec "example.com/" := by
  refine ⟨by decide, by decide, by decide⟩

/-- C7 (amended): an identifier that already carries a scheme is left as
is; a schemeless plain-host identifier is prefixed with `https://` verbatim
(no slash stripping), and the canonical robots.txt URL appends
`/robots.txt` to it. -/
theorem prepare_spec :
    (∀ r : String, ¬ urlScheme r = "" → (prepare r).1 = r) ∧
    (∀ host : String,
      (∀ c ∈ host.data, ¬ c = ':' ∧ ¬ c = '/' ∧ ¬ c = '?' ∧ ¬ c = '#') →
      prepare host = ("https://" ++ host, "https://" ++ host ++ "/robots.txt")) := by
  constructor
  · intro r h
    simp [prepare, h]
  · intro host h
    have hsch : urlScheme host = "" := urlScheme_no_colon host (fun c hc => (h c hc).1)
    have hwp := withPath_https host (fun c hc => (h c hc).2)
    simp [prepare, hsch, hwp]

/-- Witness for `prepare_spec`: a scheme-carrying identifier kept as is and
a plain host prefixed. -/
theorem prepare_spec_witness :
    (prepare "http://example.com/a").1 = "http://example.com/a" ∧
    prepare "example.com" = ("https://example.com", "https://example.com/robots.txt") :=
  ⟨prepare_spec.1 "http://example.com/a" (by decide),
   prepare_spec.2 "example.com" (by decide)⟩

/-- C8: in the context-manager pattern, `__enter__` loads the store from
the file and, when the body finishes without an exception, `__exit__`
writes `save` of the final store back to the same file slot. -/
theorem runWith_normal_completion_saves (file : Option String)
    (body : Store → Store × Option PyError) (st st2 : Store)
    (hload : load file = Except.ok st) (hbody : body st = (st2, none)) :
    runWith file body = (some (save st2), none) := by
  simp [runWith, hload, hbody]

/-- Witness for `runWith_normal_completion_saves` on an empty persisted
store and a body that adds one entry. -/
theorem runWith_normal_completion_saves_witness :
    runWith (some "\x7b\x7d")
        (fun s => (storeSet s "k" { allow := 1, disallow := 2, last_modified := none }, none))
      = (some (save (storeSet [] "k" { allow := 1, disallow := 2, last_modified := none })), none) :=
  runWith_normal_completion_saves _ _ [] _ (by decide) rfl

/-- C9: for a resource already tracked in the store, the skip test compares
timestamps without guarding against missing values: if the stored
`last_modified` is `None` or the fresh `Last-Modified` header is absent
(status not 404), `analyze` raises `TypeError`. -/
theorem analyze_unguarded_comparison_typeerror (store : Store) (resource : String)
    (head : HeadResponse) (body : String) (st : Stats)
    (h404 : ¬ head.status = 404)
    (htracked : storeFind store (prepare resource).1 = some st)
    (hnone : st.last_modified = none ∨ head.lastModified = none) :
    analyze store resource head body = (store, some PyError.typeError) := by
  rcases hnone with h | h
  · cases hlm : head.lastModified <;>
      simp [analyze, inspect, h404, htracked, h, hlm]
  · cases hst : st.last_modified <;>
      simp [analyze, inspect, h404, htracked, h, hst]

/-- Witness for `analyze_unguarded_comparison_typeerror`: a tracked
resource with a `null` stored timestamp and a present fresh header. -/
theorem analyze_unguarded_comparison_typeerror_witness :
    analyze [("https://stats.example", { allow := 1, disallow := 2, last_modified := none })]
        "https://stats.example" ⟨200, some 50⟩ ""
      = ([("https://stats.example", { allow := 1, disallow := 2, last_modified := none })],
         some PyError.typeError) :=
  analyze_unguarded_comparison_typeerror _ _ _ _
    { allow := 1, disallow := 2, last_modified := none }
    (by decide) (by decide) (Or.inl rfl)

/-- C10: `__exit__` invokes `save` unconditionally, so the store is written
back to the file even when the with-block body raised an exception. -/
theorem runWith_exception_still_saves (file : Option String)
    (body : Store → Store × Option PyError) (st st2 : Store) (e : PyError)
    (hload : load file = Except.ok st) (hbody : body st = (st2, some e)) :
    runWith file body = (some (save st2), some e) := by
  simp [runWith, hload, hbody]

/-- Witness for `runWith_exception_still_saves`: a body that raises
`RobotsTxtNotFound` still gets the store saved. -/
theorem runWith_exception_still_saves_witness :
    runWith (some "\x7b\x7d") (fun s => (s, some PyError.robotsTxtNotFound))
      = (some (save []), some PyError.robotsTxtNotFound) :=
  runWith_exception_still_saves _ _ [] [] PyError.robotsTxtNotFound (by decide) rfl
